import Mathlib

/-!
Verification of the buffer-pool layer of the BusTub storage engine
(`src/include/buffer/buffer_pool_manager.h`).

The repository ships only the header: the public grading wrappers,
the diagnostic queries (`GetPagePinCount`, `IsAllPinned`, ...) and the
documentation of every `*Impl` member are in the source, while the bodies
of `FetchPageImpl`, `UnpinPageImpl`, `FlushPageImpl`, `NewPageImpl`,
`DeletePageImpl`, `FlushAllPagesImpl`, `Evict` and the clock replacer are
not.  Those bodies are modelled from the specification; each such
definition carries a doc comment starting with `Modelled from the spec:`.
-/

namespace BusTub

/-- The sentinel `INVALID_PAGE_ID` from the source (`-1`). -/
def INVALID_PAGE_ID : Int := -1

/-- One frame of the pool: the `Page` class of the source, holding the page
identifier currently assigned (or `INVALID_PAGE_ID`), a pin count, a dirty
flag and the raw content, abstracted to a single integer. -/
structure Page where
  page_id : Int
  pin_count : Int
  is_dirty : Bool
  data : Int
deriving DecidableEq, Repr

/-- The reset state of a frame: unassigned, pin count zero, clean. -/
def Page.empty : Page := ⟨INVALID_PAGE_ID, 0, false, 0⟩

/-- Modelled from the spec: the clock (second-chance) replacer of
`buffer/clock_replacer.h`, whose implementation is not in the repository.
The circular order of tracked candidates, starting at the scan pointer,
is represented as a queue of (frame id, reference bit) pairs; the head of
the queue is the candidate the pointer looks at next. -/
structure ClockReplacer where
  queue : List (Nat × Bool)
deriving DecidableEq, Repr

/-- Modelled from the spec: one sweep of the clock pointer, with explicit
fuel (each unit of fuel is one visit of a candidate).  A candidate with
reference bit set has the bit cleared and is skipped (moved past the
pointer, i.e. to the back of the rotated queue); a candidate with clear
bit is removed from tracking and returned as the victim. -/
def clockSweep : Nat → List (Nat × Bool) → Option (Nat × List (Nat × Bool))
  | 0, _ => none
  | _, [] => none
  | Nat.succ fuel, (f, b) :: rest =>
      if b then clockSweep fuel (rest ++ [(f, false)]) else some (f, rest)

/-- Modelled from the spec: `ClockReplacer::Victim`.  The fuel
`queue.length + 1` is enough for the sweep to terminate with a victim
whenever at least one candidate is tracked (see `clockSweep_total`). -/
def ClockReplacer.Victim (r : ClockReplacer) : Option (Nat × ClockReplacer) :=
  (clockSweep (r.queue.length + 1) r.queue).map (fun p => (p.1, ⟨p.2⟩))

/-- Modelled from the spec: `ClockReplacer::Pin` (mark-accessed): a frame
whose pin count returns to nonzero is removed from tracking. -/
def ClockReplacer.Pin (r : ClockReplacer) (f : Nat) : ClockReplacer :=
  ⟨r.queue.filter (fun e => decide (e.1 ≠ f))⟩

/-- Modelled from the spec: `ClockReplacer::Unpin` (register-unpinned):
adds a frame with reference bit initialized to "recently used"; a frame
already tracked is left unchanged. -/
def ClockReplacer.Unpin (r : ClockReplacer) (f : Nat) : ClockReplacer :=
  if f ∈ r.queue.map (fun e => e.1) then r else ⟨r.queue ++ [(f, true)]⟩

/-- Modelled from the spec: `ClockReplacer::Size`, the count of currently
tracked (evictable) candidates. -/
def ClockReplacer.Size (r : ClockReplacer) : Nat := r.queue.length

/-- The frame identifiers currently tracked by a queue of candidates. -/
def trackedIds (q : List (Nat × Bool)) : List Nat := q.map (fun e => e.1)

/-- Modelled from the spec: the durable-storage collaborator
(`storage/disk/disk_manager.h`, not in the repository).  Page contents are
abstracted to one integer per page identifier; `writeFails` is the set of
identifiers on which `WritePage` reports an I/O error;
`next_page_id` is the allocation counter. -/
structure DiskManager where
  disk : Int → Int
  writeFails : Int → Bool
  next_page_id : Int

/-- Modelled from the spec: `ReadPage(id) -> bytes`.  The real collaborator
zero-fills reads past the end of the backing file, so reads are total. -/
def DiskManager.ReadPage (dm : DiskManager) (pid : Int) : Int := dm.disk pid

/-- Modelled from the spec: `WritePage(id, bytes) -> Ok | IoError`.  On an
I/O error the durable state is unchanged and `false` is returned. -/
def DiskManager.WritePage (dm : DiskManager) (pid : Int) (bytes : Int) :
    Bool × DiskManager :=
  if dm.writeFails pid then (false, dm)
  else (true, { dm with disk := fun q => if q = pid then bytes else dm.disk q })

/-- Modelled from the spec: `AllocatePageId() -> id`, a fresh identifier
from a monotone counter. -/
def DiskManager.AllocatePage (dm : DiskManager) : Int × DiskManager :=
  (dm.next_page_id, { dm with next_page_id := dm.next_page_id + 1 })

/-- Modelled from the spec: `DeletePage(id) -> Ok` (idempotent); the
durable content map is not observed afterwards, so the durable state is
kept as is. -/
def DiskManager.DeallocatePage (dm : DiskManager) (_pid : Int) : DiskManager := dm

/-- The state of one `BufferPoolManager`: the frame array (`pages_`,
modelled as a function on frame indices below `pool_size`), the page
table, the clock replacer, the free list and the disk collaborator. -/
structure BufferPoolManager where
  pool_size : Nat
  pages : Nat → Page
  page_table : List (Int × Nat)
  replacer : ClockReplacer
  free_list : List Nat
  disk : DiskManager

namespace BufferPoolManager

/-- `page_table_.find(page_id)`: the frame holding `pid`, if resident. -/
def lookupPT (s : BufferPoolManager) (pid : Int) : Option Nat :=
  (s.page_table.find? (fun e => decide (e.1 = pid))).map (fun e => e.2)

/-- The frame at index `f` of the pool array. -/
def getPage (s : BufferPoolManager) (f : Nat) : Page := s.pages f

/-- Overwrite the frame at index `f`. -/
def setPage (s : BufferPoolManager) (f : Nat) (p : Page) : BufferPoolManager :=
  { s with pages := Function.update s.pages f p }

/-- `page_table_.erase(pid)`. -/
def erasePT (pt : List (Int × Nat)) (pid : Int) : List (Int × Nat) :=
  pt.filter (fun e => decide (e.1 ≠ pid))

/-- `IsAllPinned`, embedded from the source header: true iff every frame
holding a valid page has a nonzero pin count. -/
def IsAllPinned (s : BufferPoolManager) : Bool :=
  decide (∀ f, f < s.pool_size →
    (s.pages f).page_id ≠ INVALID_PAGE_ID → (s.pages f).pin_count ≠ 0)

/-- Modelled from the spec: the body of `Evict` (declared in the header:
pick a frame from the free list first, else a replacer victim; flush a
dirty victim before reuse; install `pid` with pin count 1 and add it to
the page table).  A fetched page is loaded clean from disk; a new page is
zero-initialized and born dirty.  The spec leaves the handling of an I/O
error while flushing the victim unspecified; as in the original engine,
whose disk write reports no status, the eviction proceeds. -/
def Evict (s : BufferPoolManager) (pid : Int) (new_page : Bool) :
    Option (Nat × BufferPoolManager) :=
  match s.free_list with
  | f :: rest =>
      let s1 := { s with free_list := rest }
      let content := if new_page then 0 else s1.disk.ReadPage pid
      let s2 := setPage s1 f ⟨pid, 1, new_page, content⟩
      some (f, { s2 with page_table := (pid, f) :: s2.page_table })
  | [] =>
      match s.replacer.Victim with
      | none => none
      | some (f, r') =>
          let victim := s.pages f
          let s1 := { s with replacer := r' }
          let s2 := { s1 with disk := if victim.is_dirty then
              (s1.disk.WritePage victim.page_id victim.data).2 else s1.disk }
          let s3 := { s2 with page_table := erasePT s2.page_table victim.page_id }
          let content := if new_page then 0 else s3.disk.ReadPage pid
          let s4 := setPage s3 f ⟨pid, 1, new_page, content⟩
          some (f, { s4 with page_table := (pid, f) :: s4.page_table })

/-- Modelled from the spec: `FetchPageImpl`.  On a hit the pin count is
incremented and the frame leaves replacer tracking; on a miss a frame is
acquired through `Evict`, failing exactly when neither a free frame nor a
victim exists. -/
def FetchPageImpl (s : BufferPoolManager) (pid : Int) :
    Option Nat × BufferPoolManager :=
  match s.lookupPT pid with
  | some f =>
      let p := s.pages f
      let s1 := setPage s f { p with pin_count := p.pin_count + 1 }
      (some f, { s1 with replacer := s1.replacer.Pin f })
  | none =>
      match s.Evict pid false with
      | some (f, s') => (some f, s')
      | none => (none, s)

/-- Modelled from the spec: `UnpinPageImpl`.  Returns false, leaving the
state unchanged, when the page is not resident or its pin count is already
`<= 0` (as the header documents); otherwise decrements the pin count, ORs
the dirty flag with the argument, and registers the frame with the
replacer when the pin count reaches zero. -/
def UnpinPageImpl (s : BufferPoolManager) (pid : Int) (is_dirty : Bool) :
    Bool × BufferPoolManager :=
  match s.lookupPT pid with
  | none => (false, s)
  | some f =>
      let p := s.pages f
      if p.pin_count ≤ 0 then (false, s)
      else
        let p' : Page := ⟨p.page_id, p.pin_count - 1, p.is_dirty || is_dirty, p.data⟩
        let s1 := setPage s f p'
        if p.pin_count - 1 = 0 then
          (true, { s1 with replacer := s1.replacer.Unpin f })
        else (true, s1)

/-- Modelled from the spec: `FlushPageImpl`.  Fails when the page is not
resident; otherwise writes the frame's bytes unconditionally and clears
the dirty flag on success; a failed write leaves the state (in particular
the dirty flag) unchanged and is reported as failure. -/
def FlushPageImpl (s : BufferPoolManager) (pid : Int) :
    Bool × BufferPoolManager :=
  match s.lookupPT pid with
  | none => (false, s)
  | some f =>
      let p := s.pages f
      let w := s.disk.WritePage pid p.data
      if w.1 then
        (true, setPage { s with disk := w.2 } f
          ⟨p.page_id, p.pin_count, false, p.data⟩)
      else (false, { s with disk := w.2 })

/-- Modelled from the spec: `NewPageImpl`.  Fails when no frame is
obtainable; otherwise allocates a fresh identifier, acquires a frame as in
the miss path of fetch, zero-initializes it, marks it dirty and pins it
once.  The middle component is the value stored through the `page_id` out
parameter (unchanged on failure). -/
def NewPageImpl (s : BufferPoolManager) (out : Int) :
    Option Nat × Int × BufferPoolManager :=
  if s.free_list.isEmpty ∧ s.replacer.Size = 0 then (none, out, s)
  else
    let a := s.disk.AllocatePage
    let s1 := { s with disk := a.2 }
    match s1.Evict a.1 true with
    | some (f, s2) => (some f, a.1, s2)
    | none => (none, out, s1)

/-- Modelled from the spec: `DeletePageImpl`.  True as a no-op when the
page is not resident; false when the page is pinned; otherwise removes the
page-table entry and the replacer tracking, resets the frame to
unassigned, and returns the frame to the free list. -/
def DeletePageImpl (s : BufferPoolManager) (pid : Int) :
    Bool × BufferPoolManager :=
  match s.lookupPT pid with
  | none => (true, s)
  | some f =>
      let p := s.pages f
      if p.pin_count ≠ 0 then (false, s)
      else
        (true, { s with
          disk := s.disk.DeallocatePage pid,
          page_table := erasePT s.page_table pid,
          replacer := s.replacer.Pin f,
          pages := Function.update s.pages f Page.empty,
          free_list := s.free_list ++ [f] })

/-- Modelled from the spec: `FlushAllPagesImpl` applies the flush to every
currently resident page. -/
def FlushAllPagesImpl (s : BufferPoolManager) : BufferPoolManager :=
  (s.page_table.map (fun e => e.1)).foldl (fun st pid => (FlushPageImpl st pid).2) s

/-- The freshly constructed pool: `n` unassigned frames, all on the free
list, empty page table and replacer, a zero-filled disk whose write-error
set is `wf`, and allocation counter 0. -/
def init (n : Nat) (wf : Int → Bool) : BufferPoolManager :=
  { pool_size := n,
    pages := fun _ => Page.empty,
    page_table := [],
    replacer := ⟨[]⟩,
    free_list := List.range n,
    disk := ⟨fun _ => 0, wf, 0⟩ }

/-- `GetPagePinCount`, embedded from the source header.  The source
asserts that the page is found in the page table and aborts otherwise;
the abort is modelled as `none`. -/
def GetPagePinCount (s : BufferPoolManager) (pid : Int) : Option Int :=
  match s.lookupPT pid with
  | none => none
  | some f => some (s.pages f).pin_count

end BufferPoolManager

/-- `BufferPoolManager::CallbackType`, embedded from the source header. -/
inductive CallbackType where
  | BEFORE
  | AFTER
deriving DecidableEq, Repr

namespace BufferPoolManager

/-- `GradingCallback`, embedded from the source header: invokes the
callback when it is not null.  The callback's only observable effect is
its invocation, recorded as a trace event; a null callback is `false`. -/
def GradingCallback (callback : Bool) (t : CallbackType) (pid : Int) :
    List (CallbackType × Int) :=
  if callback then [(t, pid)] else []

/-- `FetchPage`, embedded from the source header: callback BEFORE, then
`FetchPageImpl`, then callback AFTER, returning the Impl result. -/
def FetchPage (s : BufferPoolManager) (pid : Int) (callback : Bool) :
    (Option Nat × BufferPoolManager) × List (CallbackType × Int) :=
  let t1 := GradingCallback callback CallbackType.BEFORE pid
  let r := FetchPageImpl s pid
  let t2 := GradingCallback callback CallbackType.AFTER pid
  (r, t1 ++ t2)

/-- `UnpinPage`, embedded from the source header. -/
def UnpinPage (s : BufferPoolManager) (pid : Int) (is_dirty : Bool)
    (callback : Bool) :
    (Bool × BufferPoolManager) × List (CallbackType × Int) :=
  let t1 := GradingCallback callback CallbackType.BEFORE pid
  let r := UnpinPageImpl s pid is_dirty
  let t2 := GradingCallback callback CallbackType.AFTER pid
  (r, t1 ++ t2)

/-- `FlushPage`, embedded from the source header. -/
def FlushPage (s : BufferPoolManager) (pid : Int) (callback : Bool) :
    (Bool × BufferPoolManager) × List (CallbackType × Int) :=
  let t1 := GradingCallback callback CallbackType.BEFORE pid
  let r := FlushPageImpl s pid
  let t2 := GradingCallback callback CallbackType.AFTER pid
  (r, t1 ++ t2)

/-- `NewPage`, embedded from the source header: the callback is invoked
BEFORE with `INVALID_PAGE_ID` and AFTER with the value left in the
`page_id` out parameter by `NewPageImpl`. -/
def NewPage (s : BufferPoolManager) (out : Int) (callback : Bool) :
    (Option Nat × Int × BufferPoolManager) × List (CallbackType × Int) :=
  let t1 := GradingCallback callback CallbackType.BEFORE INVALID_PAGE_ID
  let r := NewPageImpl s out
  let t2 := GradingCallback callback CallbackType.AFTER r.2.1
  (r, t1 ++ t2)

/-- `DeletePage`, embedded from the source header. -/
def DeletePage (s : BufferPoolManager) (pid : Int) (callback : Bool) :
    (Bool × BufferPoolManager) × List (CallbackType × Int) :=
  let t1 := GradingCallback callback CallbackType.BEFORE pid
  let r := DeletePageImpl s pid
  let t2 := GradingCallback callback CallbackType.AFTER pid
  (r, t1 ++ t2)

/-- `FlushAllPages`, embedded from the source header: the callback runs
BEFORE and AFTER with `INVALID_PAGE_ID`. -/
def FlushAllPages (s : BufferPoolManager) (callback : Bool) :
    BufferPoolManager × List (CallbackType × Int) :=
  let t1 := GradingCallback callback CallbackType.BEFORE INVALID_PAGE_ID
  let r := FlushAllPagesImpl s
  let t2 := GradingCallback callback CallbackType.AFTER INVALID_PAGE_ID
  (r, t1 ++ t2)

end BufferPoolManager

/-- One public mutating operation of the pool, for reasoning about
arbitrary operation sequences. -/
inductive Op where
  | fetch (pid : Int)
  | unpin (pid : Int) (d : Bool)
  | flush (pid : Int)
  | newpage
  | delete (pid : Int)
  | flushAll

/-- Apply one operation to the pool state, discarding the returned
handle/flag.  Per the caller contract of the spec (a page identifier is
allocated by the durable-storage collaborator on page creation and only
then used), a fetch of an identifier that was never allocated is not a
legal request and is skipped by this driver. -/
def applyOp (s : BufferPoolManager) : Op → BufferPoolManager
  | Op.fetch pid =>
      if 0 ≤ pid ∧ pid < s.disk.next_page_id then (s.FetchPageImpl pid).2 else s
  | Op.unpin pid d => (s.UnpinPageImpl pid d).2
  | Op.flush pid => (s.FlushPageImpl pid).2
  | Op.newpage => (s.NewPageImpl 0).2.2
  | Op.delete pid => (s.DeletePageImpl pid).2
  | Op.flushAll => s.FlushAllPagesImpl

/-- Run a sequence of operations from a state. -/
def run (ops : List Op) (s : BufferPoolManager) : BufferPoolManager :=
  ops.foldl applyOp s

open BufferPoolManager in
/-- The internal consistency invariant of the pool, preserved by every
operation: page-table entries point at in-range frames whose stored
identifier equals the key; keys are pairwise distinct and valid; every
frame holding a valid identifier is indexed by the table; free frames are
in range, unassigned and listed once; the replacer tracks exactly the
unpinned resident frames, each once; pin counts are never negative; and
every assigned identifier was allocated by the collaborator. -/
structure Inv (s : BufferPoolManager) : Prop where
  pt_frame : ∀ e ∈ s.page_table, e.2 < s.pool_size ∧ (s.pages e.2).page_id = e.1
  pt_nodup : (s.page_table.map (fun e => e.1)).Nodup
  pt_key_nonneg : ∀ e ∈ s.page_table, 0 ≤ e.1
  resident_in_pt : ∀ f, f < s.pool_size → (s.pages f).page_id ≠ INVALID_PAGE_ID →
    ((s.pages f).page_id, f) ∈ s.page_table
  free_frames : ∀ f ∈ s.free_list, f < s.pool_size ∧
    (s.pages f).page_id = INVALID_PAGE_ID
  free_nodup : s.free_list.Nodup
  repl_nodup : (trackedIds s.replacer.queue).Nodup
  repl_iff : ∀ f, f ∈ trackedIds s.replacer.queue ↔
    (f < s.pool_size ∧ (s.pages f).page_id ≠ INVALID_PAGE_ID ∧
      (s.pages f).pin_count = 0)
  pins_nonneg : ∀ f, f < s.pool_size → 0 ≤ (s.pages f).pin_count
  pid_lt : ∀ f, f < s.pool_size → (s.pages f).page_id < s.disk.next_page_id
  next_nonneg : 0 ≤ s.disk.next_page_id


/-- A two-frame pool with both frames pinned, for concrete checks. -/
def pinnedPool : BufferPoolManager :=
  { pool_size := 2,
    pages := fun f => if f = 0 then ⟨0, 1, false, 0⟩ else ⟨1, 1, false, 0⟩,
    page_table := [(0, 0), (1, 1)],
    replacer := ⟨[]⟩,
    free_list := [],
    disk := ⟨fun _ => 0, fun _ => false, 2⟩ }

/-- A one-frame pool holding an unpinned dirty page whose disk rejects
every write. -/
def dirtyPool : BufferPoolManager :=
  { pool_size := 1,
    pages := fun _ => ⟨0, 0, true, 7⟩,
    page_table := [(0, 0)],
    replacer := ⟨[(0, true)]⟩,
    free_list := [],
    disk := ⟨fun _ => 0, fun _ => true, 1⟩ }

/-- A one-frame pool holding a pinned dirty page on a reliable disk. -/
def cleanDiskPool : BufferPoolManager :=
  { pool_size := 1,
    pages := fun _ => ⟨0, 2, true, 7⟩,
    page_table := [(0, 0)],
    replacer := ⟨[]⟩,
    free_list := [],
    disk := ⟨fun _ => 0, fun _ => false, 1⟩ }

/-- More fuel never hurts: a sweep that succeeds still succeeds, with the
same result, when given one more unit of fuel. -/
theorem clockSweep_fuel_succ (fuel : Nat) :
    ∀ (q : List (Nat × Bool)) (res : Nat × List (Nat × Bool)),
      clockSweep fuel q = some res → clockSweep (fuel + 1) q = some res := by
  induction fuel with
  | zero => intro q res h; simp [clockSweep] at h
  | succ n ih =>
      intro q res h
      match q with
      | [] => simp [clockSweep] at h
      | (f, b) :: rest =>
          by_cases hb : b
          · subst hb
            simp only [clockSweep, if_pos rfl] at h ⊢
            exact ih _ _ h
          · simp only [Bool.not_eq_true] at hb
            subst hb
            simpa [clockSweep] using h

/-- Fuel monotonicity for the clock sweep. -/
theorem clockSweep_fuel_mono (fuel : Nat) :
    ∀ fuel', fuel ≤ fuel' → ∀ (q : List (Nat × Bool)) (res : Nat × List (Nat × Bool)),
      clockSweep fuel q = some res → clockSweep fuel' q = some res := by
  intro fuel'
  induction fuel' with
  | zero =>
      intro h q res hq
      have hz : fuel = 0 := Nat.le_zero.mp h
      exact hz ▸ hq
  | succ n ih =>
      intro h q res hq
      rcases Nat.lt_or_ge fuel (n + 1) with hlt | hge
      · exact clockSweep_fuel_succ n q res (ih (Nat.le_of_lt_succ hlt) q res hq)
      · have he : fuel = n + 1 := Nat.le_antisymm h hge
        exact he ▸ hq

/-- The sweep succeeds with fuel one more than the index of the first
candidate with a clear reference bit (`findIdx` returns the length when
every bit is set, and the sweep then needs exactly `length + 1` visits). -/
theorem clockSweep_total_aux (n : Nat) :
    ∀ q : List (Nat × Bool), q ≠ [] →
      q.findIdx (fun e => !e.2) ≤ n → (clockSweep (n + 1) q).isSome := by
  induction n with
  | zero =>
      intro q hq hidx
      match q with
      | (f, b) :: rest =>
          have hb : b = false := by
            by_contra hb
            simp only [Bool.not_eq_false] at hb
            subst hb
            rw [List.findIdx_cons] at hidx
            simp at hidx
          subst hb
          simp [clockSweep]
  | succ n ih =>
      intro q hq hidx
      match q with
      | (f, b) :: rest =>
          by_cases hb : b
          · subst hb
            simp only [clockSweep, if_pos rfl]
            rw [List.findIdx_cons] at hidx
            simp only [Bool.not_true, cond_false] at hidx
            have hidx' : rest.findIdx (fun e => !e.2) ≤ n := by omega
            have hne : rest ++ [(f, false)] ≠ [] := by simp
            have hfind : (rest ++ [(f, false)]).findIdx (fun e => !e.2)
                ≤ rest.findIdx (fun e => !e.2) := by
              have happ := List.findIdx_append (fun e => !e.2) rest [(f, false)]
              have hsing : ([(f, false)] : List (Nat × Bool)).findIdx
                  (fun e => !e.2) = 0 := by rfl
              rw [hsing] at happ
              rcases Nat.lt_or_ge (rest.findIdx (fun e => !e.2)) rest.length with hlt | hge
              · rw [if_pos hlt] at happ
                omega
              · rw [if_neg (Nat.not_lt.mpr hge)] at happ
                omega
            exact ih (rest ++ [(f, false)]) hne (le_trans hfind hidx')
          · simp only [Bool.not_eq_true] at hb
            subst hb
            simp [clockSweep]

/-- Whenever at least one candidate is tracked, the sweep with fuel
`length + 1` returns a victim. -/
theorem clockSweep_total (q : List (Nat × Bool)) (hq : q ≠ []) :
    (clockSweep (q.length + 1) q).isSome := by
  apply clockSweep_total_aux q.length q hq
  rcases Nat.lt_or_ge (q.findIdx (fun e => !e.2)) q.length with h | h
  · exact Nat.le_of_lt h
  · have : q.findIdx (fun e => !e.2) ≤ q.length :=
      List.findIdx_le_length (fun e : Nat × Bool => !e.2)
    omega

/-- A successful sweep removes exactly the victim from tracking: the victim
was tracked, the remaining queue has no duplicate ids, and a frame is
tracked afterwards iff it was tracked before and is not the victim. -/
theorem clockSweep_mem (fuel : Nat) :
    ∀ (q : List (Nat × Bool)) (v : Nat) (out : List (Nat × Bool)),
      (trackedIds q).Nodup → clockSweep fuel q = some (v, out) →
      (trackedIds out).Nodup ∧ v ∈ trackedIds q ∧
        ∀ f, f ∈ trackedIds out ↔ (f ≠ v ∧ f ∈ trackedIds q) := by
  induction fuel with
  | zero => intro q v out _ h; simp [clockSweep] at h
  | succ n ih =>
      intro q v out hnd h
      match q with
      | [] => simp [clockSweep] at h
      | (f0, b) :: rest =>
          by_cases hb : b
          · subst hb
            simp only [clockSweep, if_pos rfl] at h
            have hnd' : (trackedIds (rest ++ [(f0, false)])).Nodup := by
              simp only [trackedIds, List.map_append, List.map_cons,
                List.map_nil] at hnd ⊢
              simp only [List.map_cons, List.nodup_cons] at hnd
              simp [List.nodup_append, hnd.1, hnd.2]
            obtain ⟨h1, h2, h3⟩ := ih (rest ++ [(f0, false)]) v out hnd' h
            have hids : ∀ g, g ∈ trackedIds (rest ++ [(f0, false)]) ↔
                g ∈ trackedIds ((f0, true) :: rest) := by
              intro g
              simp only [trackedIds, List.map_append, List.map_cons, List.map_nil,
                List.mem_append, List.mem_cons, List.mem_singleton]
              tauto
            refine ⟨h1, (hids v).mp h2, fun f => ?_⟩
            rw [h3 f, hids f]
          · simp only [Bool.not_eq_true] at hb
            subst hb
            simp only [clockSweep, if_neg Bool.false_ne_true, Option.some.injEq,
              Prod.mk.injEq] at h
            obtain ⟨hv, hout⟩ := h
            subst hv; subst hout
            simp only [trackedIds, List.map_cons, List.nodup_cons] at hnd
            refine ⟨hnd.2, by simp [trackedIds], fun f => ?_⟩
            simp only [trackedIds, List.map_cons, List.mem_cons]
            constructor
            · intro hf
              refine ⟨fun he => hnd.1 (he ▸ hf), Or.inr hf⟩
            · rintro ⟨hne, hf | hf⟩
              · exact absurd hf hne
              · exact hf

section Helpers

open BufferPoolManager

/-- In a list of pairs with pairwise distinct keys, an entry is determined
by its key. -/
theorem key_determines {α β : Type} {l : List (α × β)}
    (hnd : (l.map (fun e => e.1)).Nodup) {e1 e2 : α × β}
    (h1 : e1 ∈ l) (h2 : e2 ∈ l) (hk : e1.1 = e2.1) : e1 = e2 := by
  induction l with
  | nil => simp at h1
  | cons a t ih =>
      simp only [List.map_cons, List.nodup_cons] at hnd
      rcases List.mem_cons.mp h1 with rfl | h1t
      · rcases List.mem_cons.mp h2 with rfl | h2t
        · rfl
        · exact absurd (hk ▸ List.mem_map_of_mem (fun e => e.1) h2t) hnd.1
      · rcases List.mem_cons.mp h2 with rfl | h2t
        · exact absurd (hk ▸ List.mem_map_of_mem (fun e => e.1) h1t) hnd.1
        · exact ih hnd.2 h1t h2t

/-- A `none` page-table lookup means no entry carries the key. -/
theorem lookupPT_eq_none {s : BufferPoolManager} {pid : Int} :
    s.lookupPT pid = none ↔ ∀ e ∈ s.page_table, e.1 ≠ pid := by
  simp [lookupPT, List.find?_eq_none]

/-- A successful page-table lookup produces a real entry. -/
theorem lookupPT_mem {s : BufferPoolManager} {pid : Int} {f : Nat}
    (h : s.lookupPT pid = some f) : (pid, f) ∈ s.page_table := by
  simp only [lookupPT, Option.map_eq_some'] at h
  obtain ⟨e, he, hf⟩ := h
  have hmem := List.mem_of_find?_eq_some he
  have hp := List.find?_some he
  simp only [decide_eq_true_eq] at hp
  have : e = (pid, f) := by
    obtain ⟨a, b⟩ := e
    simp only at hp hf
    simp [hp, hf]
  exact this ▸ hmem

/-- With pairwise distinct keys, membership determines the lookup. -/
theorem lookupPT_of_mem {s : BufferPoolManager} {pid : Int} {f : Nat}
    (hnd : (s.page_table.map (fun e => e.1)).Nodup)
    (h : (pid, f) ∈ s.page_table) : s.lookupPT pid = some f := by
  cases hfind : s.lookupPT pid with
  | none => exact absurd rfl ((lookupPT_eq_none.mp hfind) (pid, f) h)
  | some g =>
      have hmem := lookupPT_mem hfind
      have := key_determines hnd hmem h rfl
      simp only [Prod.mk.injEq] at this
      rw [this.2]

/-- Frame membership after `ClockReplacer.Pin`. -/
theorem tracked_Pin (r : ClockReplacer) (f g : Nat) :
    g ∈ trackedIds (r.Pin f).queue ↔ (g ≠ f ∧ g ∈ trackedIds r.queue) := by
  unfold trackedIds ClockReplacer.Pin
  constructor
  · intro h
    obtain ⟨e, he, hge⟩ := List.mem_map.mp h
    obtain ⟨heq, hp⟩ := List.mem_filter.mp he
    simp only [decide_eq_true_eq] at hp
    subst hge
    exact ⟨hp, List.mem_map_of_mem (fun e => e.1) heq⟩
  · rintro ⟨hne, hg⟩
    obtain ⟨e, he, hge⟩ := List.mem_map.mp hg
    subst hge
    refine List.mem_map_of_mem (fun e => e.1) (List.mem_filter.mpr ⟨he, ?_⟩)
    simpa using hne

/-- `ClockReplacer.Pin` keeps distinctness of tracked ids. -/
theorem nodup_Pin (r : ClockReplacer) (f : Nat)
    (h : (trackedIds r.queue).Nodup) : (trackedIds (r.Pin f).queue).Nodup := by
  unfold trackedIds ClockReplacer.Pin at *
  exact (((List.filter_sublist r.queue)).map (fun e => e.1)).nodup h

/-- Frame membership after `ClockReplacer.Unpin`. -/
theorem tracked_Unpin (r : ClockReplacer) (f g : Nat) :
    g ∈ trackedIds (r.Unpin f).queue ↔ (g = f ∨ g ∈ trackedIds r.queue) := by
  simp only [ClockReplacer.Unpin, trackedIds]
  by_cases hf : f ∈ r.queue.map (fun e => e.1)
  · rw [if_pos hf]
    constructor
    · exact Or.inr
    · rintro (rfl | h)
      · exact hf
      · exact h
  · rw [if_neg hf]
    simp only [List.map_append, List.mem_append, List.map_cons, List.map_nil,
      List.mem_singleton]
    tauto

/-- `ClockReplacer.Unpin` keeps distinctness of tracked ids. -/
theorem nodup_Unpin (r : ClockReplacer) (f : Nat)
    (h : (trackedIds r.queue).Nodup) : (trackedIds (r.Unpin f).queue).Nodup := by
  simp only [ClockReplacer.Unpin, trackedIds] at *
  by_cases hf : f ∈ r.queue.map (fun e => e.1)
  · rw [if_pos hf]; exact h
  · rw [if_neg hf]
    simp only [List.map_append, List.map_cons, List.map_nil]
    simp [List.nodup_append, h, hf]

/-- The victim of a nonempty replacer exists. -/
theorem Victim_isSome (r : ClockReplacer) (h : r.queue ≠ []) :
    r.Victim.isSome := by
  simp only [ClockReplacer.Victim, Option.isSome_map']
  exact clockSweep_total r.queue h

/-- The empty replacer has no victim. -/
theorem Victim_empty : ClockReplacer.Victim ⟨[]⟩ = none := rfl

/-- What a successful victim selection does to the tracked set. -/
theorem Victim_mem {r : ClockReplacer} {f : Nat} {r' : ClockReplacer}
    (hnd : (trackedIds r.queue).Nodup) (h : r.Victim = some (f, r')) :
    (trackedIds r'.queue).Nodup ∧ f ∈ trackedIds r.queue ∧
      ∀ g, g ∈ trackedIds r'.queue ↔ (g ≠ f ∧ g ∈ trackedIds r.queue) := by
  simp only [ClockReplacer.Victim, Option.map_eq_some'] at h
  obtain ⟨⟨v, out⟩, hsweep, heq⟩ := h
  have h1 : v = f := by
    have := congrArg Prod.fst heq
    simpa using this
  have h2 : r'.queue = out := by
    have := congrArg Prod.snd heq
    simp only at this
    rw [← this]
  subst h1
  obtain ⟨ha, hb, hc⟩ := clockSweep_mem _ _ _ _ hnd hsweep
  rw [h2]
  exact ⟨ha, hb, hc⟩

/-- `WritePage` never changes the allocation counter. -/
theorem WritePage_next (dm : DiskManager) (pid bytes : Int) :
    (dm.WritePage pid bytes).2.next_page_id = dm.next_page_id := by
  unfold DiskManager.WritePage
  split <;> rfl

/-- `WritePage` never changes the write-error set. -/
theorem WritePage_writeFails (dm : DiskManager) (pid bytes : Int) :
    (dm.WritePage pid bytes).2.writeFails = dm.writeFails := by
  unfold DiskManager.WritePage
  split <;> rfl

/-- With a nonempty free list, `Evict` pops its front frame, leaving the
replacer and the disk untouched. -/
theorem Evict_free (s : BufferPoolManager) (pid : Int) (np : Bool)
    {f0 : Nat} {rest : List Nat} (hfl : s.free_list = f0 :: rest) :
    s.Evict pid np = some (f0,
      { s with
          pages := Function.update s.pages f0
            ⟨pid, 1, np, if np then 0 else s.disk.ReadPage pid⟩,
          page_table := (pid, f0) :: s.page_table,
          free_list := rest }) := by
  unfold BufferPoolManager.Evict
  rw [hfl]
  rfl

/-- With an empty free list, `Evict` takes the replacer's victim, flushes
it if dirty, unmaps it and installs the new page in its frame. -/
theorem Evict_victim (s : BufferPoolManager) (pid : Int) (np : Bool)
    (hfl : s.free_list = []) {vf : Nat} {r' : ClockReplacer}
    (hv : s.replacer.Victim = some (vf, r')) :
    s.Evict pid np = some (vf,
      { s with
          pages := Function.update s.pages vf
            ⟨pid, 1, np, if np then 0 else
              (if (s.pages vf).is_dirty then
                (s.disk.WritePage (s.pages vf).page_id (s.pages vf).data).2
               else s.disk).ReadPage pid⟩,
          page_table := (pid, vf) :: erasePT s.page_table (s.pages vf).page_id,
          replacer := r',
          disk := if (s.pages vf).is_dirty then
            (s.disk.WritePage (s.pages vf).page_id (s.pages vf).data).2
          else s.disk }) := by
  unfold BufferPoolManager.Evict
  rw [hfl, hv]
  rfl

/-- With an empty free list and an empty replacer, `Evict` fails. -/
theorem Evict_none (s : BufferPoolManager) (pid : Int) (np : Bool)
    (hfl : s.free_list = []) (hq : s.replacer.queue = []) :
    s.Evict pid np = none := by
  unfold BufferPoolManager.Evict
  rw [hfl]
  have : s.replacer = ⟨[]⟩ := by
    cases hr : s.replacer
    simp_all
  rw [this, Victim_empty]

/-- A fetch hit pins the frame and removes it from replacer tracking. -/
theorem FetchPageImpl_hit {s : BufferPoolManager} {pid : Int} {f : Nat}
    (h : s.lookupPT pid = some f) :
    s.FetchPageImpl pid = (some f,
      { s with
          pages := Function.update s.pages f
            ⟨(s.pages f).page_id, (s.pages f).pin_count + 1,
             (s.pages f).is_dirty, (s.pages f).data⟩,
          replacer := s.replacer.Pin f }) := by
  unfold BufferPoolManager.FetchPageImpl
  rw [h]
  rfl

/-- A fetch miss delegates to `Evict`. -/
theorem FetchPageImpl_miss {s : BufferPoolManager} {pid : Int}
    (h : s.lookupPT pid = none) :
    s.FetchPageImpl pid =
      (match s.Evict pid false with
       | some (f, s') => (some f, s')
       | none => (none, s)) := by
  unfold BufferPoolManager.FetchPageImpl
  rw [h]

/-- Unpin of a non-resident page fails and changes nothing. -/
theorem UnpinPageImpl_none {s : BufferPoolManager} {pid : Int} (d : Bool)
    (h : s.lookupPT pid = none) : s.UnpinPageImpl pid d = (false, s) := by
  unfold BufferPoolManager.UnpinPageImpl
  rw [h]

/-- Unpin of a page whose pin count is not positive fails and changes
nothing. -/
theorem UnpinPageImpl_zero {s : BufferPoolManager} {pid : Int} {f : Nat}
    (d : Bool) (h : s.lookupPT pid = some f)
    (hpin : (s.pages f).pin_count ≤ 0) : s.UnpinPageImpl pid d = (false, s) := by
  unfold BufferPoolManager.UnpinPageImpl
  rw [h]
  simp only [if_pos hpin]

/-- A successful unpin that brings the pin count to zero registers the
frame with the replacer. -/
theorem UnpinPageImpl_last {s : BufferPoolManager} {pid : Int} {f : Nat}
    (d : Bool) (h : s.lookupPT pid = some f)
    (hpin : 0 < (s.pages f).pin_count)
    (hone : (s.pages f).pin_count - 1 = 0) :
    s.UnpinPageImpl pid d = (true,
      { s with
          pages := Function.update s.pages f
            ⟨(s.pages f).page_id, (s.pages f).pin_count - 1,
             (s.pages f).is_dirty || d, (s.pages f).data⟩,
          replacer := s.replacer.Unpin f }) := by
  unfold BufferPoolManager.UnpinPageImpl
  rw [h]
  simp only [if_neg (not_le.mpr hpin), if_pos hone]
  rfl

/-- A successful unpin that leaves the pin count positive does not touch
the replacer. -/
theorem UnpinPageImpl_dec {s : BufferPoolManager} {pid : Int} {f : Nat}
    (d : Bool) (h : s.lookupPT pid = some f)
    (hpin : 0 < (s.pages f).pin_count)
    (hmany : (s.pages f).pin_count - 1 ≠ 0) :
    s.UnpinPageImpl pid d = (true,
      { s with
          pages := Function.update s.pages f
            ⟨(s.pages f).page_id, (s.pages f).pin_count - 1,
             (s.pages f).is_dirty || d, (s.pages f).data⟩ }) := by
  unfold BufferPoolManager.UnpinPageImpl
  rw [h]
  simp only [if_neg (not_le.mpr hpin), if_neg hmany]
  rfl

/-- Flush of a non-resident page fails and changes nothing. -/
theorem FlushPageImpl_none {s : BufferPoolManager} {pid : Int}
    (h : s.lookupPT pid = none) : s.FlushPageImpl pid = (false, s) := by
  unfold BufferPoolManager.FlushPageImpl
  rw [h]

/-- A flush whose disk write reports an I/O error fails and changes
nothing: in particular the dirty flag stays as it was. -/
theorem FlushPageImpl_fail {s : BufferPoolManager} {pid : Int} {f : Nat}
    (h : s.lookupPT pid = some f) (hw : s.disk.writeFails pid = true) :
    s.FlushPageImpl pid = (false, s) := by
  unfold BufferPoolManager.FlushPageImpl DiskManager.WritePage
  rw [h]
  simp [hw]

/-- A successful flush persists the bytes and clears the dirty flag,
leaving pin count, identifier and residency untouched. -/
theorem FlushPageImpl_ok {s : BufferPoolManager} {pid : Int} {f : Nat}
    (h : s.lookupPT pid = some f) (hw : s.disk.writeFails pid = false) :
    s.FlushPageImpl pid = (true,
      { s with
          pages := Function.update s.pages f
            ⟨(s.pages f).page_id, (s.pages f).pin_count, false,
             (s.pages f).data⟩,
          disk := { s.disk with disk := fun q =>
            if q = pid then (s.pages f).data else s.disk.disk q } }) := by
  unfold BufferPoolManager.FlushPageImpl DiskManager.WritePage
  rw [h]
  simp only [hw, Bool.false_eq_true, if_false, if_true]
  rfl

/-- Membership in the page table after erasing a key. -/
theorem mem_erasePT {pt : List (Int × Nat)} {pid : Int} {e : Int × Nat} :
    e ∈ erasePT pt pid ↔ (e ∈ pt ∧ e.1 ≠ pid) := by
  simp [erasePT, List.mem_filter]

/-- Erasing a key keeps the keys pairwise distinct. -/
theorem erasePT_keys_nodup {pt : List (Int × Nat)}
    (h : (pt.map (fun e => e.1)).Nodup) (pid : Int) :
    ((erasePT pt pid).map (fun e => e.1)).Nodup :=
  ((List.filter_sublist pt).map (fun e => e.1)).nodup h

/-- Delete of a non-resident page succeeds as a no-op. -/
theorem DeletePageImpl_none {s : BufferPoolManager} {pid : Int}
    (h : s.lookupPT pid = none) : s.DeletePageImpl pid = (true, s) := by
  unfold BufferPoolManager.DeletePageImpl
  rw [h]

/-- Delete of a pinned page fails and changes nothing. -/
theorem DeletePageImpl_pinned {s : BufferPoolManager} {pid : Int} {f : Nat}
    (h : s.lookupPT pid = some f) (hpin : (s.pages f).pin_count ≠ 0) :
    s.DeletePageImpl pid = (false, s) := by
  unfold BufferPoolManager.DeletePageImpl
  rw [h]
  simp only [if_pos hpin]

/-- Delete of an unpinned resident page unmaps it, removes it from
replacer tracking, resets the frame and frees it. -/
theorem DeletePageImpl_ok {s : BufferPoolManager} {pid : Int} {f : Nat}
    (h : s.lookupPT pid = some f) (hpin : (s.pages f).pin_count = 0) :
    s.DeletePageImpl pid = (true,
      { s with
          page_table := erasePT s.page_table pid,
          replacer := s.replacer.Pin f,
          pages := Function.update s.pages f Page.empty,
          free_list := s.free_list ++ [f] }) := by
  unfold BufferPoolManager.DeletePageImpl
  rw [h]
  simp only [hpin]
  rfl

end Helpers

namespace Inv

open BufferPoolManager

/-- Under the invariant, at most one frame holds a given page. -/
theorem unique {s : BufferPoolManager} (hs : Inv s) {f1 f2 : Nat}
    (h1 : f1 < s.pool_size) (h2 : f2 < s.pool_size)
    (hv : (s.pages f1).page_id ≠ INVALID_PAGE_ID)
    (heq : (s.pages f1).page_id = (s.pages f2).page_id) : f1 = f2 := by
  have m1 := hs.resident_in_pt f1 h1 hv
  have m2 := hs.resident_in_pt f2 h2 (heq ▸ hv)
  have := key_determines hs.pt_nodup m1 m2 (by simpa using heq)
  simpa using congrArg Prod.snd this

/-- Under the invariant, a free frame is never tracked by the replacer. -/
theorem free_not_tracked {s : BufferPoolManager} (hs : Inv s) {f : Nat}
    (h : f ∈ s.free_list) : f ∉ trackedIds s.replacer.queue := by
  intro ht
  have := (hs.repl_iff f).mp ht
  exact this.2.1 (hs.free_frames f h).2

/-- Under the invariant, the identifier fresh from the allocation counter
is not resident. -/
theorem lookup_next_none {s : BufferPoolManager} (hs : Inv s) :
    s.lookupPT s.disk.next_page_id = none := by
  rw [lookupPT_eq_none]
  intro e he
  obtain ⟨hlt, hid⟩ := hs.pt_frame e he
  have := hs.pid_lt e.2 hlt
  omega

/-- The invariant holds for the freshly constructed pool. -/
theorem init (n : Nat) (wf : Int → Bool) : Inv (BufferPoolManager.init n wf) := by
  constructor <;>
    simp [BufferPoolManager.init, trackedIds, Page.empty, INVALID_PAGE_ID,
      List.mem_range, List.nodup_range]

end Inv

section Preservation

open BufferPoolManager

/-- The frame-acquisition path preserves the invariant, provided the
requested identifier was allocated and is not resident. -/
theorem Inv_Evict {s : BufferPoolManager} (hs : Inv s) {pid : Int} {np : Bool}
    (hpid0 : 0 ≤ pid) (hpidlt : pid < s.disk.next_page_id)
    (hmiss : s.lookupPT pid = none) {f : Nat} {s' : BufferPoolManager}
    (h : s.Evict pid np = some (f, s')) :
    Inv s' ∧ s'.pool_size = s.pool_size ∧
      s'.disk.next_page_id = s.disk.next_page_id := by
  have hmiss' : ∀ e ∈ s.page_table, e.1 ≠ pid := lookupPT_eq_none.mp hmiss
  cases hfl : s.free_list with
  | cons f0 rest =>
      rw [Evict_free s pid np hfl] at h
      injection h with h
      injection h with hf hs'
      subst hf
      subst hs'
      have hfmem : f0 ∈ s.free_list := by rw [hfl]; exact List.mem_cons_self f0 rest
      obtain ⟨hflt, hfid⟩ := hs.free_frames f0 hfmem
      have hnd := hfl ▸ hs.free_nodup
      obtain ⟨hfnotin, hrestnd⟩ := List.nodup_cons.mp hnd
      refine ⟨?_, rfl, rfl⟩
      constructor
      all_goals dsimp only
      · -- pt_frame
        intro e he
        rcases List.mem_cons.mp he with rfl | he'
        · exact ⟨hflt, by simp [Function.update_same]⟩
        · obtain ⟨helt, heid⟩ := hs.pt_frame e he'
          have hne : e.2 ≠ f0 := by
            intro hE
            have hk := hs.pt_key_nonneg e he'
            rw [hE, hfid] at heid
            simp only [INVALID_PAGE_ID] at heid
            omega
          exact ⟨helt, by rw [Function.update_noteq hne]; exact heid⟩
      · -- pt_nodup
        simp only [List.map_cons, List.nodup_cons]
        refine ⟨?_, hs.pt_nodup⟩
        intro hmem
        obtain ⟨e, he, hkey⟩ := List.mem_map.mp hmem
        exact hmiss' e he hkey
      · -- pt_key_nonneg
        intro e he
        rcases List.mem_cons.mp he with rfl | he'
        · exact hpid0
        · exact hs.pt_key_nonneg e he'
      · -- resident_in_pt
        intro g hg hgid
        by_cases hgf : g = f0
        · subst hgf
          simp only [Function.update_same]
          exact List.mem_cons_self _ _
        · rw [Function.update_noteq hgf] at hgid ⊢
          exact List.mem_cons_of_mem _ (hs.resident_in_pt g hg hgid)
      · -- free_frames
        intro g hgmem
        have hgrest : g ∈ rest := hgmem
        have hgf : g ≠ f0 := fun hE => hfnotin (hE ▸ hgrest)
        have := hs.free_frames g (by rw [hfl]; exact List.mem_cons_of_mem f0 hgrest)
        rw [Function.update_noteq hgf]
        exact this
      · -- free_nodup
        exact hrestnd
      · -- repl_nodup
        exact hs.repl_nodup
      · -- repl_iff
        intro g
        by_cases hgf : g = f0
        · subst hgf
          simp only [Function.update_same]
          constructor
          · intro hg
            exact absurd hfid ((hs.repl_iff g).mp hg).2.1
          · intro hg
            exact absurd hg.2.2 one_ne_zero
        · rw [Function.update_noteq hgf]
          exact hs.repl_iff g
      · -- pins_nonneg
        intro g hg
        by_cases hgf : g = f0
        · subst hgf; simp [Function.update_same]
        · rw [Function.update_noteq hgf]; exact hs.pins_nonneg g hg
      · -- pid_lt
        intro g hg
        by_cases hgf : g = f0
        · subst hgf; simpa [Function.update_same] using hpidlt
        · rw [Function.update_noteq hgf]; exact hs.pid_lt g hg
      · -- next_nonneg
        exact hs.next_nonneg
  | nil =>
      cases hvic : s.replacer.Victim with
      | none =>
          have hq : s.replacer.queue = [] := by
            by_contra hq
            have := Victim_isSome s.replacer hq
            rw [hvic] at this
            simp at this
          rw [Evict_none s pid np hfl hq] at h
          exact absurd h (by simp)
      | some p =>
          obtain ⟨vf, r'⟩ := p
          rw [Evict_victim s pid np hfl hvic] at h
          injection h with h
          injection h with hf hs'
          subst hf
          subst hs'
          obtain ⟨hnd', hvmem, hmem⟩ := Victim_mem hs.repl_nodup hvic
          obtain ⟨hvlt, hvid, hvpin⟩ := (hs.repl_iff vf).mp hvmem
          have hvinpt : ((s.pages vf).page_id, vf) ∈ s.page_table :=
            hs.resident_in_pt vf hvlt hvid
          have hDnext : (if (s.pages vf).is_dirty then
              (s.disk.WritePage (s.pages vf).page_id (s.pages vf).data).2
            else s.disk).next_page_id = s.disk.next_page_id := by
            cases (s.pages vf).is_dirty <;> simp [WritePage_next]
          refine ⟨?_, rfl, hDnext⟩
          constructor
          all_goals dsimp only
          · -- pt_frame
            intro e he
            rcases List.mem_cons.mp he with rfl | he'
            · exact ⟨hvlt, by simp [Function.update_same]⟩
            · obtain ⟨hein, hekey⟩ := mem_erasePT.mp he'
              obtain ⟨helt, heid⟩ := hs.pt_frame e hein
              have hne : e.2 ≠ vf := by
                intro hE
                rw [hE] at heid
                exact hekey heid.symm
              exact ⟨helt, by rw [Function.update_noteq hne]; exact heid⟩
          · -- pt_nodup
            simp only [List.map_cons, List.nodup_cons]
            refine ⟨?_, erasePT_keys_nodup hs.pt_nodup _⟩
            intro hmemk
            obtain ⟨e, he, hkey⟩ := List.mem_map.mp hmemk
            exact hmiss' e (mem_erasePT.mp he).1 hkey
          · -- pt_key_nonneg
            intro e he
            rcases List.mem_cons.mp he with rfl | he'
            · exact hpid0
            · exact hs.pt_key_nonneg e (mem_erasePT.mp he').1
          · -- resident_in_pt
            intro g hg hgid
            by_cases hgf : g = vf
            · subst hgf
              simp only [Function.update_same]
              exact List.mem_cons_self _ _
            · rw [Function.update_noteq hgf] at hgid ⊢
              have hgpt := hs.resident_in_pt g hg hgid
              refine List.mem_cons_of_mem _ (mem_erasePT.mpr ⟨hgpt, ?_⟩)
              intro hkey
              exact hgf (Inv.unique hs hg hvlt hgid hkey)
          · -- free_frames
            intro g hgmem
            have hg' : g ∈ s.free_list := hgmem
            rw [hfl] at hg'
            exact absurd hg' (List.not_mem_nil g)
          · -- free_nodup
            exact hs.free_nodup
          · -- repl_nodup
            exact hnd'
          · -- repl_iff
            intro g
            rw [hmem g]
            by_cases hgf : g = vf
            · subst hgf
              simp only [Function.update_same]
              constructor
              · intro hg
                exact absurd rfl hg.1
              · intro hg
                exact absurd hg.2.2 one_ne_zero
            · rw [Function.update_noteq hgf]
              constructor
              · intro hg
                exact (hs.repl_iff g).mp hg.2
              · intro hg
                exact ⟨hgf, (hs.repl_iff g).mpr hg⟩
          · -- pins_nonneg
            intro g hg
            by_cases hgf : g = vf
            · subst hgf; simp [Function.update_same]
            · rw [Function.update_noteq hgf]; exact hs.pins_nonneg g hg
          · -- pid_lt
            intro g hg
            rw [hDnext]
            by_cases hgf : g = vf
            · subst hgf; simpa [Function.update_same] using hpidlt
            · rw [Function.update_noteq hgf]; exact hs.pid_lt g hg
          · -- next_nonneg
            rw [hDnext]
            exact hs.next_nonneg

/-- Fetch preserves the invariant for every allocated identifier. -/
theorem Inv_fetch {s : BufferPoolManager} (hs : Inv s) {pid : Int}
    (hpid0 : 0 ≤ pid) (hpidlt : pid < s.disk.next_page_id) :
    Inv (s.FetchPageImpl pid).2 := by
  cases hl : s.lookupPT pid with
  | none =>
      rw [FetchPageImpl_miss hl]
      cases he : s.Evict pid false with
      | none => exact hs
      | some p =>
          obtain ⟨f, s'⟩ := p
          exact (Inv_Evict hs hpid0 hpidlt hl he).1
  | some f =>
      rw [FetchPageImpl_hit hl]
      have hfm := lookupPT_mem hl
      obtain ⟨hflt, hfid⟩ := hs.pt_frame _ hfm
      constructor
      all_goals dsimp only
      · -- pt_frame
        intro e he
        obtain ⟨helt, heid⟩ := hs.pt_frame e he
        refine ⟨helt, ?_⟩
        by_cases hef : e.2 = f
        · rw [hef, Function.update_same]
          rw [hef] at heid
          exact heid
        · rw [Function.update_noteq hef]
          exact heid
      · exact hs.pt_nodup
      · exact hs.pt_key_nonneg
      · -- resident_in_pt
        intro g hg hgid
        by_cases hgf : g = f
        · subst hgf
          rw [Function.update_same] at hgid ⊢
          show ((s.pages g).page_id, g) ∈ s.page_table
          exact hs.resident_in_pt g hg hgid
        · rw [Function.update_noteq hgf] at hgid ⊢
          exact hs.resident_in_pt g hg hgid
      · -- free_frames
        intro g hgm
        obtain ⟨hglt, hgid⟩ := hs.free_frames g hgm
        have hgf : g ≠ f := by
          intro hE
          rw [hE, hfid] at hgid
          simp only [INVALID_PAGE_ID] at hgid
          omega
        rw [Function.update_noteq hgf]
        exact ⟨hglt, hgid⟩
      · exact hs.free_nodup
      · exact nodup_Pin s.replacer f hs.repl_nodup
      · -- repl_iff
        intro g
        rw [tracked_Pin]
        by_cases hgf : g = f
        · subst hgf
          rw [Function.update_same]
          constructor
          · rintro ⟨hne, _⟩
            exact absurd rfl hne
          · rintro ⟨_, _, hpin⟩
            have hp : (s.pages g).pin_count + 1 = 0 := hpin
            have := hs.pins_nonneg g hflt
            omega
        · rw [Function.update_noteq hgf]
          constructor
          · rintro ⟨_, h⟩
            exact (hs.repl_iff g).mp h
          · intro h
            exact ⟨hgf, (hs.repl_iff g).mpr h⟩
      · -- pins_nonneg
        intro g hg
        by_cases hgf : g = f
        · subst hgf
          rw [Function.update_same]
          show 0 ≤ (s.pages g).pin_count + 1
          have := hs.pins_nonneg g hg
          omega
        · rw [Function.update_noteq hgf]
          exact hs.pins_nonneg g hg
      · -- pid_lt
        intro g hg
        by_cases hgf : g = f
        · subst hgf
          rw [Function.update_same]
          show (s.pages g).page_id < s.disk.next_page_id
          exact hs.pid_lt g hg
        · rw [Function.update_noteq hgf]
          exact hs.pid_lt g hg
      · exact hs.next_nonneg

/-- Unpin preserves the invariant. -/
theorem Inv_unpin {s : BufferPoolManager} (hs : Inv s) (pid : Int) (d : Bool) :
    Inv (s.UnpinPageImpl pid d).2 := by
  cases hl : s.lookupPT pid with
  | none => rw [UnpinPageImpl_none d hl]; exact hs
  | some f =>
      rcases le_or_lt (s.pages f).pin_count 0 with hle | hgt
      · rw [UnpinPageImpl_zero d hl hle]; exact hs
      · have hfm := lookupPT_mem hl
        obtain ⟨hflt, hfid⟩ := hs.pt_frame _ hfm
        have hk := hs.pt_key_nonneg _ hfm
        by_cases hone : (s.pages f).pin_count - 1 = 0
        · rw [UnpinPageImpl_last d hl hgt hone]
          constructor
          all_goals dsimp only
          · intro e he
            obtain ⟨helt, heid⟩ := hs.pt_frame e he
            refine ⟨helt, ?_⟩
            by_cases hef : e.2 = f
            · rw [hef, Function.update_same]
              rw [hef] at heid
              exact heid
            · rw [Function.update_noteq hef]
              exact heid
          · exact hs.pt_nodup
          · exact hs.pt_key_nonneg
          · intro g hg hgid
            by_cases hgf : g = f
            · subst hgf
              rw [Function.update_same] at hgid ⊢
              show ((s.pages g).page_id, g) ∈ s.page_table
              exact hs.resident_in_pt g hg hgid
            · rw [Function.update_noteq hgf] at hgid ⊢
              exact hs.resident_in_pt g hg hgid
          · intro g hgm
            obtain ⟨hglt, hgid⟩ := hs.free_frames g hgm
            have hgf : g ≠ f := by
              intro hE
              rw [hE, hfid] at hgid
              simp only [INVALID_PAGE_ID] at hgid
              omega
            rw [Function.update_noteq hgf]
            exact ⟨hglt, hgid⟩
          · exact hs.free_nodup
          · exact nodup_Unpin s.replacer f hs.repl_nodup
          · intro g
            rw [tracked_Unpin]
            by_cases hgf : g = f
            · subst hgf
              rw [Function.update_same]
              constructor
              · intro _
                refine ⟨hflt, ?_, hone⟩
                show (s.pages g).page_id ≠ INVALID_PAGE_ID
                rw [hfid]
                simp only [INVALID_PAGE_ID]
                omega
              · intro _
                exact Or.inl rfl
            · rw [Function.update_noteq hgf]
              constructor
              · rintro (rfl | h)
                · exact absurd rfl hgf
                · exact (hs.repl_iff g).mp h
              · intro h
                exact Or.inr ((hs.repl_iff g).mpr h)
          · intro g hg
            by_cases hgf : g = f
            · subst hgf
              rw [Function.update_same]
              show 0 ≤ (s.pages g).pin_count - 1
              omega
            · rw [Function.update_noteq hgf]
              exact hs.pins_nonneg g hg
          · intro g hg
            by_cases hgf : g = f
            · subst hgf
              rw [Function.update_same]
              show (s.pages g).page_id < s.disk.next_page_id
              exact hs.pid_lt g hg
            · rw [Function.update_noteq hgf]
              exact hs.pid_lt g hg
          · exact hs.next_nonneg
        · rw [UnpinPageImpl_dec d hl hgt hone]
          constructor
          all_goals dsimp only
          · intro e he
            obtain ⟨helt, heid⟩ := hs.pt_frame e he
            refine ⟨helt, ?_⟩
            by_cases hef : e.2 = f
            · rw [hef, Function.update_same]
              rw [hef] at heid
              exact heid
            · rw [Function.update_noteq hef]
              exact heid
          · exact hs.pt_nodup
          · exact hs.pt_key_nonneg
          · intro g hg hgid
            by_cases hgf : g = f
            · subst hgf
              rw [Function.update_same] at hgid ⊢
              show ((s.pages g).page_id, g) ∈ s.page_table
              exact hs.resident_in_pt g hg hgid
            · rw [Function.update_noteq hgf] at hgid ⊢
              exact hs.resident_in_pt g hg hgid
          · intro g hgm
            obtain ⟨hglt, hgid⟩ := hs.free_frames g hgm
            have hgf : g ≠ f := by
              intro hE
              rw [hE, hfid] at hgid
              simp only [INVALID_PAGE_ID] at hgid
              omega
            rw [Function.update_noteq hgf]
            exact ⟨hglt, hgid⟩
          · exact hs.free_nodup
          · exact hs.repl_nodup
          · intro g
            by_cases hgf : g = f
            · subst hgf
              rw [Function.update_same]
              constructor
              · intro hg
                have := ((hs.repl_iff g).mp hg).2.2
                omega
              · rintro ⟨_, _, hp⟩
                have hp' : (s.pages g).pin_count - 1 = 0 := hp
                exact absurd hp' hone
            · rw [Function.update_noteq hgf]
              exact hs.repl_iff g
          · intro g hg
            by_cases hgf : g = f
            · subst hgf
              rw [Function.update_same]
              show 0 ≤ (s.pages g).pin_count - 1
              omega
            · rw [Function.update_noteq hgf]
              exact hs.pins_nonneg g hg
          · intro g hg
            by_cases hgf : g = f
            · subst hgf
              rw [Function.update_same]
              show (s.pages g).page_id < s.disk.next_page_id
              exact hs.pid_lt g hg
            · rw [Function.update_noteq hgf]
              exact hs.pid_lt g hg
          · exact hs.next_nonneg

/-- Flush preserves the invariant. -/
theorem Inv_flush {s : BufferPoolManager} (hs : Inv s) (pid : Int) :
    Inv (s.FlushPageImpl pid).2 := by
  cases hl : s.lookupPT pid with
  | none => rw [FlushPageImpl_none hl]; exact hs
  | some f =>
      cases hw : s.disk.writeFails pid with
      | true => rw [FlushPageImpl_fail hl hw]; exact hs
      | false =>
          rw [FlushPageImpl_ok hl hw]
          have hfm := lookupPT_mem hl
          obtain ⟨hflt, hfid⟩ := hs.pt_frame _ hfm
          have hk := hs.pt_key_nonneg _ hfm
          constructor
          all_goals dsimp only
          · intro e he
            obtain ⟨helt, heid⟩ := hs.pt_frame e he
            refine ⟨helt, ?_⟩
            by_cases hef : e.2 = f
            · rw [hef, Function.update_same]
              rw [hef] at heid
              exact heid
            · rw [Function.update_noteq hef]
              exact heid
          · exact hs.pt_nodup
          · exact hs.pt_key_nonneg
          · intro g hg hgid
            by_cases hgf : g = f
            · subst hgf
              rw [Function.update_same] at hgid ⊢
              show ((s.pages g).page_id, g) ∈ s.page_table
              exact hs.resident_in_pt g hg hgid
            · rw [Function.update_noteq hgf] at hgid ⊢
              exact hs.resident_in_pt g hg hgid
          · intro g hgm
            obtain ⟨hglt, hgid⟩ := hs.free_frames g hgm
            have hgf : g ≠ f := by
              intro hE
              rw [hE, hfid] at hgid
              simp only [INVALID_PAGE_ID] at hgid
              omega
            rw [Function.update_noteq hgf]
            exact ⟨hglt, hgid⟩
          · exact hs.free_nodup
          · exact hs.repl_nodup
          · intro g
            by_cases hgf : g = f
            · subst hgf
              rw [Function.update_same]
              show _ ↔ (g < s.pool_size ∧ (s.pages g).page_id ≠ INVALID_PAGE_ID ∧
                (s.pages g).pin_count = 0)
              exact hs.repl_iff g
            · rw [Function.update_noteq hgf]
              exact hs.repl_iff g
          · intro g hg
            by_cases hgf : g = f
            · subst hgf
              rw [Function.update_same]
              show 0 ≤ (s.pages g).pin_count
              exact hs.pins_nonneg g hg
            · rw [Function.update_noteq hgf]
              exact hs.pins_nonneg g hg
          · intro g hg
            by_cases hgf : g = f
            · subst hgf
              rw [Function.update_same]
              show (s.pages g).page_id < s.disk.next_page_id
              exact hs.pid_lt g hg
            · rw [Function.update_noteq hgf]
              exact hs.pid_lt g hg
          · exact hs.next_nonneg

/-- Delete preserves the invariant. -/
theorem Inv_delete {s : BufferPoolManager} (hs : Inv s) (pid : Int) :
    Inv (s.DeletePageImpl pid).2 := by
  cases hl : s.lookupPT pid with
  | none => rw [DeletePageImpl_none hl]; exact hs
  | some f =>
      by_cases hp : (s.pages f).pin_count = 0
      · rw [DeletePageImpl_ok hl hp]
        have hfm := lookupPT_mem hl
        obtain ⟨hflt, hfid⟩ := hs.pt_frame _ hfm
        have hk := hs.pt_key_nonneg _ hfm
        constructor
        all_goals dsimp only
        · intro e he
          obtain ⟨hein, hekey⟩ := mem_erasePT.mp he
          obtain ⟨helt, heid⟩ := hs.pt_frame e hein
          have hne : e.2 ≠ f := by
            intro hE
            rw [hE, hfid] at heid
            exact hekey heid.symm
          exact ⟨helt, by rw [Function.update_noteq hne]; exact heid⟩
        · exact erasePT_keys_nodup hs.pt_nodup pid
        · intro e he
          exact hs.pt_key_nonneg e (mem_erasePT.mp he).1
        · intro g hg hgid
          by_cases hgf : g = f
          · subst hgf
            rw [Function.update_same] at hgid
            exact absurd rfl hgid
          · rw [Function.update_noteq hgf] at hgid ⊢
            refine mem_erasePT.mpr ⟨hs.resident_in_pt g hg hgid, ?_⟩
            intro hkey
            exact hgf (Inv.unique hs hg hflt hgid (hkey.trans hfid.symm))
        · intro g hg
          rcases List.mem_append.mp hg with hgold | hgnew
          · obtain ⟨hglt, hgid⟩ := hs.free_frames g hgold
            have hgf : g ≠ f := by
              intro hE
              rw [hE, hfid] at hgid
              simp only [INVALID_PAGE_ID] at hgid
              omega
            rw [Function.update_noteq hgf]
            exact ⟨hglt, hgid⟩
          · have hgf : g = f := by simpa using hgnew
            subst hgf
            rw [Function.update_same]
            exact ⟨hflt, rfl⟩
        · have hfnot : f ∉ s.free_list := by
            intro hmem
            have := (hs.free_frames f hmem).2
            rw [hfid] at this
            simp only [INVALID_PAGE_ID] at this
            omega
          simp [List.nodup_append, hs.free_nodup, hfnot]
        · exact nodup_Pin s.replacer f hs.repl_nodup
        · intro g
          rw [tracked_Pin]
          by_cases hgf : g = f
          · subst hgf
            rw [Function.update_same]
            constructor
            · rintro ⟨hne, _⟩
              exact absurd rfl hne
            · rintro ⟨_, hid, _⟩
              exact absurd rfl hid
          · rw [Function.update_noteq hgf]
            constructor
            · rintro ⟨_, h⟩
              exact (hs.repl_iff g).mp h
            · intro h
              exact ⟨hgf, (hs.repl_iff g).mpr h⟩
        · intro g hg
          by_cases hgf : g = f
          · subst hgf
            rw [Function.update_same]
            show (0 : Int) ≤ 0
            omega
          · rw [Function.update_noteq hgf]
            exact hs.pins_nonneg g hg
        · intro g hg
          by_cases hgf : g = f
          · subst hgf
            rw [Function.update_same]
            show INVALID_PAGE_ID < s.disk.next_page_id
            have := hs.next_nonneg
            simp only [INVALID_PAGE_ID]
            omega
          · rw [Function.update_noteq hgf]
            exact hs.pid_lt g hg
        · exact hs.next_nonneg
      · rw [DeletePageImpl_pinned hl hp]
        exact hs

/-- The exhausted-pool branch of `NewPageImpl`. -/
theorem NewPageImpl_full {s : BufferPoolManager} (out : Int)
    (hc : s.free_list.isEmpty ∧ s.replacer.Size = 0) :
    s.NewPageImpl out = (none, out, s) := by
  unfold BufferPoolManager.NewPageImpl
  rw [if_pos hc]

/-- The allocating branch of `NewPageImpl`. -/
theorem NewPageImpl_go {s : BufferPoolManager} (out : Int)
    (hc : ¬(s.free_list.isEmpty ∧ s.replacer.Size = 0)) :
    s.NewPageImpl out =
      (match BufferPoolManager.Evict
          { s with disk := { s.disk with
              next_page_id := s.disk.next_page_id + 1 } }
          s.disk.next_page_id true with
       | some (f, s2) => (some f, s.disk.next_page_id, s2)
       | none => (none, out,
          { s with disk := { s.disk with
              next_page_id := s.disk.next_page_id + 1 } })) := by
  unfold BufferPoolManager.NewPageImpl
  rw [if_neg hc]
  rfl

/-- NewPage preserves the invariant. -/
theorem Inv_newpage {s : BufferPoolManager} (hs : Inv s) (out : Int) :
    Inv (s.NewPageImpl out).2.2 := by
  by_cases hc : s.free_list.isEmpty ∧ s.replacer.Size = 0
  · rw [NewPageImpl_full out hc]
    exact hs
  · rw [NewPageImpl_go out hc]
    have hs1 : Inv { s with disk := { s.disk with
        next_page_id := s.disk.next_page_id + 1 } } := by
      constructor
      all_goals dsimp only
      · exact hs.pt_frame
      · exact hs.pt_nodup
      · exact hs.pt_key_nonneg
      · exact hs.resident_in_pt
      · exact hs.free_frames
      · exact hs.free_nodup
      · exact hs.repl_nodup
      · exact hs.repl_iff
      · exact hs.pins_nonneg
      · intro g hg
        have := hs.pid_lt g hg
        omega
      · have := hs.next_nonneg
        omega
    have hmiss1 : BufferPoolManager.lookupPT
        { s with disk := { s.disk with
            next_page_id := s.disk.next_page_id + 1 } }
        s.disk.next_page_id = none := by
      rw [lookupPT_eq_none]
      intro e he
      have he' : e ∈ s.page_table := he
      obtain ⟨helt, _⟩ := hs.pt_frame e he'
      have h1 := hs.pid_lt e.2 helt
      have h2 := (hs.pt_frame e he').2
      omega
    cases he : BufferPoolManager.Evict
        { s with disk := { s.disk with
            next_page_id := s.disk.next_page_id + 1 } }
        s.disk.next_page_id true with
    | none => exact hs1
    | some p =>
        obtain ⟨f, s2⟩ := p
        have h0 : 0 ≤ s.disk.next_page_id := hs.next_nonneg
        have hlt : s.disk.next_page_id <
            ({ s with disk := { s.disk with
                next_page_id := s.disk.next_page_id + 1 } } :
              BufferPoolManager).disk.next_page_id := by
          dsimp only
          omega
        exact (Inv_Evict hs1 h0 hlt hmiss1 he).1

/-- Folding flushes over any identifier list preserves the invariant. -/
theorem Inv_foldl_flush (pids : List Int) :
    ∀ {s : BufferPoolManager}, Inv s →
      Inv (pids.foldl (fun st pid => (st.FlushPageImpl pid).2) s) := by
  induction pids with
  | nil => intro s hs; exact hs
  | cons p ps ih => intro s hs; exact ih (Inv_flush hs p)

/-- FlushAll preserves the invariant. -/
theorem Inv_flushAll {s : BufferPoolManager} (hs : Inv s) :
    Inv s.FlushAllPagesImpl := by
  unfold BufferPoolManager.FlushAllPagesImpl
  exact Inv_foldl_flush (s.page_table.map (fun e => e.1)) hs

/-- Every driver step preserves the invariant. -/
theorem Inv_applyOp {s : BufferPoolManager} (hs : Inv s) (op : Op) :
    Inv (applyOp s op) := by
  cases op with
  | fetch pid =>
      dsimp only [applyOp]
      by_cases hc : 0 ≤ pid ∧ pid < s.disk.next_page_id
      · rw [if_pos hc]
        exact Inv_fetch hs hc.1 hc.2
      · rw [if_neg hc]
        exact hs
  | unpin pid d => exact Inv_unpin hs pid d
  | flush pid => exact Inv_flush hs pid
  | newpage => exact Inv_newpage hs 0
  | delete pid => exact Inv_delete hs pid
  | flushAll => exact Inv_flushAll hs

/-- The invariant holds after any run from an invariant state. -/
theorem Inv_run (ops : List Op) :
    ∀ {s : BufferPoolManager}, Inv s → Inv (run ops s) := by
  induction ops with
  | nil => intro s hs; exact hs
  | cons op rest ih => intro s hs; exact ih (Inv_applyOp hs op)

end Preservation

section ClaimSupport

open BufferPoolManager

/-- Registering a frame always leaves the replacer nonempty. -/
theorem Unpin_queue_ne (r : ClockReplacer) (f : Nat) :
    (r.Unpin f).queue ≠ [] := by
  unfold ClockReplacer.Unpin
  by_cases hf : f ∈ r.queue.map (fun e => e.1)
  · rw [if_pos hf]
    intro h0
    rw [h0] at hf
    simp at hf
  · rw [if_neg hf]
    simp

/-- A fetch miss succeeds whenever a free frame or a tracked candidate
exists. -/
theorem FetchPageImpl_isSome {t : BufferPoolManager} {pid : Int}
    (hmiss : t.lookupPT pid = none)
    (h : t.free_list ≠ [] ∨ t.replacer.queue ≠ []) :
    ((t.FetchPageImpl pid).1).isSome := by
  rw [FetchPageImpl_miss hmiss]
  cases hfl : t.free_list with
  | cons f0 rest =>
      rw [Evict_free t pid false hfl]
      rfl
  | nil =>
      have hqne : t.replacer.queue ≠ [] := by
        rcases h with h | h
        · exact absurd hfl h
        · exact h
      obtain ⟨p, hp⟩ := Option.isSome_iff_exists.mp (Victim_isSome t.replacer hqne)
      obtain ⟨vf, r'⟩ := p
      rw [Evict_victim t pid false hfl hp]
      rfl

end ClaimSupport

section Claims

open BufferPoolManager

/-- C1: a fetch of a non-resident page fails exactly when no frame is
obtainable — the free list is empty and the replacer tracks no candidate
(the pool is fully pinned); and after a resident page held with pin count
one is unpinned, the same fetch of the non-resident page succeeds. -/
theorem fetch_capacity_boundary :
    (∀ (s : BufferPoolManager) (pid : Int), s.lookupPT pid = none →
      ((s.FetchPageImpl pid).1 = none ↔
        (s.free_list = [] ∧ s.replacer.Size = 0)))
  ∧ (∀ (s : BufferPoolManager) (pid qid : Int) (f : Nat),
      s.lookupPT pid = none → s.lookupPT qid = some f →
      (s.pages f).pin_count = 1 →
      (((s.UnpinPageImpl qid false).2.FetchPageImpl pid).1).isSome) := by
  constructor
  · intro s pid hmiss
    constructor
    · intro hres
      refine ⟨?_, ?_⟩
      · cases hfl : s.free_list with
        | nil => rfl
        | cons f0 rest =>
            rw [FetchPageImpl_miss hmiss, Evict_free s pid false hfl] at hres
            simp at hres
      · by_contra hsz
        have hqne : s.replacer.queue ≠ [] := by
          intro h0
          apply hsz
          unfold ClockReplacer.Size
          rw [h0]
          rfl
        have := FetchPageImpl_isSome hmiss (Or.inr hqne)
        rw [hres] at this
        simp at this
    · rintro ⟨hfl, hsz⟩
      have hq : s.replacer.queue = [] := List.length_eq_zero.mp hsz
      rw [FetchPageImpl_miss hmiss, Evict_none s pid false hfl hq]
  · intro s pid qid f hmiss hq hpin
    have hone : (s.pages f).pin_count - 1 = 0 := by omega
    have hgt : 0 < (s.pages f).pin_count := by omega
    rw [UnpinPageImpl_last false hq hgt hone]
    apply FetchPageImpl_isSome
    · exact hmiss
    · exact Or.inr (Unpin_queue_ne s.replacer f)

/-- C1 witness: in a two-frame pool with both pages pinned once, fetching
non-resident page 2 fails; after unpinning page 1, the same fetch
succeeds. -/
theorem fetch_capacity_boundary_witness :
    ((pinnedPool.FetchPageImpl 2).1 = none) ∧
    ((((pinnedPool.UnpinPageImpl 1 false).2.FetchPageImpl 2).1).isSome) := by
  constructor
  · exact (fetch_capacity_boundary.1 pinnedPool 2 (by decide)).mpr ⟨rfl, rfl⟩
  · exact fetch_capacity_boundary.2 pinnedPool 2 1 1 (by decide) (by decide)
      (by decide)

/-- C2: over every operation sequence from a fresh pool, pin counts stay
non-negative; unpin fails and changes nothing when the page is not
resident or its pin count is already zero; otherwise it returns true and
decrements the pin count by exactly one. -/
theorem pin_count_never_negative :
    (∀ (n : Nat) (wf : Int → Bool) (ops : List Op) (f : Nat),
      f < (run ops (BufferPoolManager.init n wf)).pool_size →
      0 ≤ ((run ops (BufferPoolManager.init n wf)).pages f).pin_count)
  ∧ (∀ (s : BufferPoolManager) (pid : Int) (d : Bool),
      s.lookupPT pid = none → s.UnpinPageImpl pid d = (false, s))
  ∧ (∀ (s : BufferPoolManager) (pid : Int) (d : Bool) (f : Nat),
      s.lookupPT pid = some f → (s.pages f).pin_count = 0 →
      s.UnpinPageImpl pid d = (false, s))
  ∧ (∀ (s : BufferPoolManager) (pid : Int) (d : Bool) (f : Nat),
      s.lookupPT pid = some f → 0 < (s.pages f).pin_count →
      (s.UnpinPageImpl pid d).1 = true ∧
      ((s.UnpinPageImpl pid d).2.pages f).pin_count =
        (s.pages f).pin_count - 1) := by
  refine ⟨?_, ?_, ?_, ?_⟩
  · intro n wf ops f hf
    exact (Inv_run ops (Inv.init n wf)).pins_nonneg f hf
  · intro s pid d h
    exact UnpinPageImpl_none d h
  · intro s pid d f h hz
    exact UnpinPageImpl_zero d h (le_of_eq hz)
  · intro s pid d f h hpos
    by_cases hone : (s.pages f).pin_count - 1 = 0
    · rw [UnpinPageImpl_last d h hpos hone]
      refine ⟨rfl, ?_⟩
      dsimp only
      rw [Function.update_same]
    · rw [UnpinPageImpl_dec d h hpos hone]
      refine ⟨rfl, ?_⟩
      dsimp only
      rw [Function.update_same]

/-- C2 witness: concrete checks of the non-negativity and of each unpin
case. -/
theorem pin_count_never_negative_witness :
    (0 ≤ ((run [Op.newpage] (BufferPoolManager.init 1 (fun _ => false))).pages
      0).pin_count) ∧
    (pinnedPool.UnpinPageImpl 5 false = (false, pinnedPool)) ∧
    (dirtyPool.UnpinPageImpl 0 false = (false, dirtyPool)) ∧
    ((pinnedPool.UnpinPageImpl 0 true).1 = true ∧
      ((pinnedPool.UnpinPageImpl 0 true).2.pages 0).pin_count =
        (pinnedPool.pages 0).pin_count - 1) := by
  refine ⟨?_, ?_, ?_, ?_⟩
  · exact pin_count_never_negative.1 1 (fun _ => false) [Op.newpage] 0 (by decide)
  · exact pin_count_never_negative.2.1 pinnedPool 5 false (by decide)
  · exact pin_count_never_negative.2.2.1 dirtyPool 0 false 0 (by decide) (by decide)
  · exact pin_count_never_negative.2.2.2 pinnedPool 0 true 0 (by decide) (by decide)

/-- C3: delete succeeds as a no-op on a non-resident page, fails leaving
everything unchanged on a pinned page, and on an unpinned resident page
removes the page-table entry, removes the frame from replacer tracking,
resets the frame to unassigned and appends it to the free list. -/
theorem delete_page_contract :
    (∀ (s : BufferPoolManager) (pid : Int),
      s.lookupPT pid = none → s.DeletePageImpl pid = (true, s))
  ∧ (∀ (s : BufferPoolManager) (pid : Int) (f : Nat),
      s.lookupPT pid = some f → 0 < (s.pages f).pin_count →
      s.DeletePageImpl pid = (false, s))
  ∧ (∀ (s : BufferPoolManager) (pid : Int) (f : Nat),
      s.lookupPT pid = some f → (s.pages f).pin_count = 0 →
      s.DeletePageImpl pid = (true,
        { s with
            page_table := erasePT s.page_table pid,
            replacer := s.replacer.Pin f,
            pages := Function.update s.pages f Page.empty,
            free_list := s.free_list ++ [f] })) := by
  refine ⟨?_, ?_, ?_⟩
  · intro s pid h
    exact DeletePageImpl_none h
  · intro s pid f h hp
    exact DeletePageImpl_pinned h (by omega)
  · intro s pid f h hp
    exact DeletePageImpl_ok h hp

/-- C3 witness: concrete checks of the three delete cases. -/
theorem delete_page_contract_witness :
    (pinnedPool.DeletePageImpl 7 = (true, pinnedPool)) ∧
    (pinnedPool.DeletePageImpl 0 = (false, pinnedPool)) ∧
    (dirtyPool.DeletePageImpl 0 = (true,
      { dirtyPool with
          page_table := erasePT dirtyPool.page_table 0,
          replacer := dirtyPool.replacer.Pin 0,
          pages := Function.update dirtyPool.pages 0 Page.empty,
          free_list := dirtyPool.free_list ++ [0] })) := by
  refine ⟨?_, ?_, ?_⟩
  · exact delete_page_contract.1 pinnedPool 7 (by decide)
  · exact delete_page_contract.2.1 pinnedPool 0 0 (by decide) (by decide)
  · exact delete_page_contract.2.2 dirtyPool 0 0 (by decide) (by decide)

/-- C4 counterexample: in a pool whose disk rejects writes, flushing the
resident page 0 returns false even though the page is resident, so
"returns false if and only if the page is not resident" fails. -/
theorem flush_false_iff_resident_cex :
    ¬(((dirtyPool.FlushPageImpl 0).1 = false) ↔
      (dirtyPool.lookupPT 0 = none)) := by
  decide

/-- C4 (amended): flush returns false exactly when the page is not
resident or the durable write reports an I/O error; on success it
persists the bytes unconditionally and clears the dirty flag, leaving pin
count and residency untouched; a failed write leaves the whole state, in
particular the set dirty flag, unchanged. -/
theorem flush_page_contract :
    (∀ (s : BufferPoolManager) (pid : Int),
      ((s.FlushPageImpl pid).1 = false ↔
        (s.lookupPT pid = none ∨ s.disk.writeFails pid = true)))
  ∧ (∀ (s : BufferPoolManager) (pid : Int) (f : Nat),
      s.lookupPT pid = some f → s.disk.writeFails pid = false →
      (s.FlushPageImpl pid).1 = true ∧
      (s.FlushPageImpl pid).2.pages f =
        ⟨(s.pages f).page_id, (s.pages f).pin_count, false,
         (s.pages f).data⟩ ∧
      (s.FlushPageImpl pid).2.page_table = s.page_table ∧
      (s.FlushPageImpl pid).2.disk.disk pid = (s.pages f).data)
  ∧ (∀ (s : BufferPoolManager) (pid : Int) (f : Nat),
      s.lookupPT pid = some f → s.disk.writeFails pid = true →
      s.FlushPageImpl pid = (false, s)) := by
  refine ⟨?_, ?_, ?_⟩
  · intro s pid
    cases hl : s.lookupPT pid with
    | none =>
        rw [FlushPageImpl_none hl]
        simp [hl]
    | some f =>
        cases hw : s.disk.writeFails pid with
        | false =>
            rw [FlushPageImpl_ok hl hw]
            simp [hl, hw]
        | true =>
            rw [FlushPageImpl_fail hl hw]
            simp [hl, hw]
  · intro s pid f hl hw
    rw [FlushPageImpl_ok hl hw]
    refine ⟨rfl, ?_, rfl, ?_⟩
    · dsimp only
      rw [Function.update_same]
    · dsimp only
      simp
  · intro s pid f hl hw
    exact FlushPageImpl_fail hl hw

/-- C4 witness: a successful flush on a reliable disk and a failed flush
on a rejecting disk, at concrete states. -/
theorem flush_page_contract_witness :
    ((cleanDiskPool.FlushPageImpl 0).1 = true ∧
      (cleanDiskPool.FlushPageImpl 0).2.pages 0 =
        ⟨(cleanDiskPool.pages 0).page_id, (cleanDiskPool.pages 0).pin_count,
         false, (cleanDiskPool.pages 0).data⟩ ∧
      (cleanDiskPool.FlushPageImpl 0).2.page_table =
        cleanDiskPool.page_table ∧
      (cleanDiskPool.FlushPageImpl 0).2.disk.disk 0 =
        (cleanDiskPool.pages 0).data) ∧
    (dirtyPool.FlushPageImpl 0 = (false, dirtyPool)) := by
  constructor
  · exact flush_page_contract.2.1 cleanDiskPool 0 0 (by decide) (by decide)
  · exact flush_page_contract.2.2 dirtyPool 0 0 (by decide) (by decide)

/-- C5: whenever the free list is nonempty, the acquisition path takes its
front frame: no replacer victim is selected, no disk write happens, and
the rest of the free list remains. -/
theorem free_list_preference :
    ∀ (s : BufferPoolManager) (pid : Int) (np : Bool) (f0 : Nat)
      (rest : List Nat), s.free_list = f0 :: rest →
      ∃ s', s.Evict pid np = some (f0, s') ∧
        s'.replacer = s.replacer ∧ s'.disk = s.disk ∧
        s'.free_list = rest := by
  intro s pid np f0 rest hfl
  exact ⟨_, Evict_free s pid np hfl, rfl, rfl, rfl⟩

/-- C5 witness: on a fresh one-frame pool the free frame 0 is used and the
replacer and disk are untouched. -/
theorem free_list_preference_witness :
    ∃ s', (BufferPoolManager.init 1 (fun _ => false)).Evict 5 false =
        some (0, s') ∧
      s'.replacer = (BufferPoolManager.init 1 (fun _ => false)).replacer ∧
      s'.disk = (BufferPoolManager.init 1 (fun _ => false)).disk ∧
      s'.free_list = [] :=
  free_list_preference (BufferPoolManager.init 1 (fun _ => false)) 5 false 0 []
    (by decide)

/-- C6: after any operation sequence from a fresh pool, at most one frame
holds a given page identifier; a valid identifier is a page-table key
exactly when some frame holds it; and the mapped frame's stored
identifier equals the key. -/
theorem residency_exclusivity :
    ∀ (n : Nat) (wf : Int → Bool) (ops : List Op),
      (∀ f1 f2 : Nat,
        f1 < (run ops (BufferPoolManager.init n wf)).pool_size →
        f2 < (run ops (BufferPoolManager.init n wf)).pool_size →
        ((run ops (BufferPoolManager.init n wf)).pages f1).page_id ≠
          INVALID_PAGE_ID →
        ((run ops (BufferPoolManager.init n wf)).pages f1).page_id =
          ((run ops (BufferPoolManager.init n wf)).pages f2).page_id →
        f1 = f2)
    ∧ (∀ pid : Int, pid ≠ INVALID_PAGE_ID →
        (((run ops (BufferPoolManager.init n wf)).lookupPT pid).isSome ↔
          ∃ f, f < (run ops (BufferPoolManager.init n wf)).pool_size ∧
            ((run ops (BufferPoolManager.init n wf)).pages f).page_id = pid))
    ∧ (∀ (pid : Int) (f : Nat),
        (run ops (BufferPoolManager.init n wf)).lookupPT pid = some f →
        ((run ops (BufferPoolManager.init n wf)).pages f).page_id = pid) := by
  intro n wf ops
  have hs := Inv_run ops (Inv.init n wf)
  refine ⟨?_, ?_, ?_⟩
  · intro f1 f2 h1 h2 hv he
    exact Inv.unique hs h1 h2 hv he
  · intro pid hpid
    constructor
    · intro hsome
      obtain ⟨f, hf⟩ := Option.isSome_iff_exists.mp hsome
      have hm := lookupPT_mem hf
      obtain ⟨hlt, hid⟩ := hs.pt_frame _ hm
      exact ⟨f, hlt, hid⟩
    · rintro ⟨f, hlt, hid⟩
      have hm := hs.resident_in_pt f hlt (by rw [hid]; exact hpid)
      rw [hid] at hm
      rw [lookupPT_of_mem hs.pt_nodup hm]
      rfl
  · intro pid f hf
    exact (hs.pt_frame _ (lookupPT_mem hf)).2

/-- C6 witness: after creating one page in a fresh one-frame pool, the
stored identifier of the mapped frame equals the key and frame uniqueness
holds. -/
theorem residency_exclusivity_witness :
    ((run [Op.newpage] (BufferPoolManager.init 1
        (fun _ => false))).pages 0).page_id = 0 ∧ (0 : Nat) = 0 := by
  constructor
  · exact (residency_exclusivity 1 (fun _ => false) [Op.newpage]).2.2 0 0
      (by decide)
  · exact (residency_exclusivity 1 (fun _ => false) [Op.newpage]).1 0 0
      (by decide) (by decide) (by decide) (by decide)

/-- C7: a successful unpin leaves the frame's dirty flag equal to the OR
of its previous value and the is_dirty argument: a dirty unpin sets it
and a clean unpin never clears it. -/
theorem unpin_dirty_or :
    ∀ (s : BufferPoolManager) (pid : Int) (d : Bool) (f : Nat),
      s.lookupPT pid = some f → 0 < (s.pages f).pin_count →
      ((s.UnpinPageImpl pid d).2.pages f).is_dirty =
        ((s.pages f).is_dirty || d) := by
  intro s pid d f h hpos
  by_cases hone : (s.pages f).pin_count - 1 = 0
  · rw [UnpinPageImpl_last d h hpos hone]
    dsimp only
    rw [Function.update_same]
  · rw [UnpinPageImpl_dec d h hpos hone]
    dsimp only
    rw [Function.update_same]

/-- C7 witness: unpinning page 0 with is_dirty true sets the clean
frame's dirty flag. -/
theorem unpin_dirty_or_witness :
    ((pinnedPool.UnpinPageImpl 0 true).2.pages 0).is_dirty =
      ((pinnedPool.pages 0).is_dirty || true) :=
  unpin_dirty_or pinnedPool 0 true 0 (by decide) (by decide)

/-- C8: the replacer's victim selection is the second-chance sweep: a
nonempty replacer always yields a victim; a head candidate with set
reference bit is cleared and skipped; a head candidate with clear bit is
removed and returned; and fuel twice the number of candidates (each
visited at most twice) suffices for the sweep. -/
theorem clock_second_chance :
    (∀ r : ClockReplacer, r.queue ≠ [] → r.Victim.isSome)
  ∧ (∀ (f : Nat) (rest : List (Nat × Bool)),
      ClockReplacer.Victim ⟨(f, true) :: rest⟩ =
        ClockReplacer.Victim ⟨rest ++ [(f, false)]⟩)
  ∧ (∀ (f : Nat) (rest : List (Nat × Bool)),
      ClockReplacer.Victim ⟨(f, false) :: rest⟩ = some (f, ⟨rest⟩))
  ∧ (∀ q : List (Nat × Bool), q ≠ [] →
      (clockSweep (2 * q.length) q).isSome) := by
  refine ⟨?_, ?_, ?_, ?_⟩
  · intro r h
    exact Victim_isSome r h
  · intro f rest
    have hmem : (f, false) ∈ rest ++ [(f, false)] := by simp
    have hlt : (rest ++ [(f, false)]).findIdx (fun e => !e.2) <
        (rest ++ [(f, false)]).length :=
      List.findIdx_lt_length_of_exists ⟨(f, false), hmem, by simp⟩
    have hle : (rest ++ [(f, false)]).findIdx (fun e => !e.2) ≤
        rest.length := by
      simp only [List.length_append, List.length_cons, List.length_nil] at hlt
      omega
    have h1 := clockSweep_total_aux rest.length (rest ++ [(f, false)])
      (by simp) hle
    obtain ⟨x, hx⟩ := Option.isSome_iff_exists.mp h1
    have hx2 := clockSweep_fuel_mono (rest.length + 1) (rest.length + 2)
      (by omega) _ x hx
    unfold ClockReplacer.Victim
    have hstep : clockSweep (((f, true) :: rest).length + 1)
        ((f, true) :: rest) =
        clockSweep (rest.length + 1) (rest ++ [(f, false)]) := by
      simp [clockSweep]
    have hlen : (rest ++ [(f, false)]).length + 1 = rest.length + 2 := by
      simp
    rw [hstep, hlen, hx, hx2]
  · intro f rest
    rfl
  · intro q hq
    have hlen : 1 ≤ q.length := by
      cases q with
      | nil => exact absurd rfl hq
      | cons a t => simp
    have hle : q.findIdx (fun e => !e.2) ≤ q.length :=
      List.findIdx_le_length (fun e : Nat × Bool => !e.2)
    have h1 := clockSweep_total_aux q.length q hq hle
    obtain ⟨x, hx⟩ := Option.isSome_iff_exists.mp h1
    have hx2 := clockSweep_fuel_mono (q.length + 1) (2 * q.length)
      (by omega) q x hx
    rw [hx2]
    rfl

/-- C8 witness: a tracked pair with alternating bits yields a victim, and
fuel twice the candidate count suffices on it. -/
theorem clock_second_chance_witness :
    ((ClockReplacer.Victim ⟨[(3, true), (4, false)]⟩).isSome) ∧
    ((clockSweep (2 * [(3, true), (4, false)].length)
      [(3, true), (4, false)]).isSome) := by
  constructor
  · exact clock_second_chance.1 ⟨[(3, true), (4, false)]⟩ (by decide)
  · exact clock_second_chance.2.2.2 [(3, true), (4, false)] (by decide)

/-- C9: `GetPagePinCount` is defined only when the page is resident: for
a non-resident page the assertion fails (modelled as `none`, the abort),
and under the residency precondition it returns the mapped frame's pin
count. -/
theorem get_page_pin_count_spec :
    ∀ (s : BufferPoolManager) (pid : Int),
      (s.lookupPT pid = none → s.GetPagePinCount pid = none)
    ∧ (∀ f, s.lookupPT pid = some f →
        s.GetPagePinCount pid = some ((s.pages f).pin_count)) := by
  intro s pid
  constructor
  · intro h
    unfold BufferPoolManager.GetPagePinCount
    rw [h]
  · intro f h
    unfold BufferPoolManager.GetPagePinCount
    rw [h]

/-- C9 witness: the diagnostic aborts on the absent page 9 and returns
the pin count of resident page 0. -/
theorem get_page_pin_count_spec_witness :
    (pinnedPool.GetPagePinCount 9 = none) ∧
    (pinnedPool.GetPagePinCount 0 = some ((pinnedPool.pages 0).pin_count)) := by
  constructor
  · exact (get_page_pin_count_spec pinnedPool 9).1 (by decide)
  · exact (get_page_pin_count_spec pinnedPool 0).2 0 (by decide)

/-- C10: each public wrapper returns exactly its Impl's result; a null
callback produces no invocation, a non-null callback is invoked exactly
once BEFORE and once AFTER around the Impl call with the operation's page
identifier; NewPage invokes BEFORE with the invalid sentinel and AFTER
with the out-parameter value, which on success is the freshly allocated
identifier and otherwise the untouched input. -/
theorem wrapper_callback_refinement :
    (∀ (s : BufferPoolManager) (pid : Int),
      (s.FetchPage pid false).1 = s.FetchPageImpl pid ∧
      (s.FetchPage pid false).2 = [] ∧
      (s.FetchPage pid true).1 = s.FetchPageImpl pid ∧
      (s.FetchPage pid true).2 =
        [(CallbackType.BEFORE, pid), (CallbackType.AFTER, pid)])
  ∧ (∀ (s : BufferPoolManager) (pid : Int) (d : Bool),
      (s.UnpinPage pid d false).1 = s.UnpinPageImpl pid d ∧
      (s.UnpinPage pid d false).2 = [] ∧
      (s.UnpinPage pid d true).1 = s.UnpinPageImpl pid d ∧
      (s.UnpinPage pid d true).2 =
        [(CallbackType.BEFORE, pid), (CallbackType.AFTER, pid)])
  ∧ (∀ (s : BufferPoolManager) (pid : Int),
      (s.FlushPage pid false).1 = s.FlushPageImpl pid ∧
      (s.FlushPage pid false).2 = [] ∧
      (s.FlushPage pid true).1 = s.FlushPageImpl pid ∧
      (s.FlushPage pid true).2 =
        [(CallbackType.BEFORE, pid), (CallbackType.AFTER, pid)])
  ∧ (∀ (s : BufferPoolManager) (pid : Int),
      (s.DeletePage pid false).1 = s.DeletePageImpl pid ∧
      (s.DeletePage pid false).2 = [] ∧
      (s.DeletePage pid true).1 = s.DeletePageImpl pid ∧
      (s.DeletePage pid true).2 =
        [(CallbackType.BEFORE, pid), (CallbackType.AFTER, pid)])
  ∧ (∀ s : BufferPoolManager,
      (s.FlushAllPages false).1 = s.FlushAllPagesImpl ∧
      (s.FlushAllPages false).2 = [] ∧
      (s.FlushAllPages true).1 = s.FlushAllPagesImpl ∧
      (s.FlushAllPages true).2 =
        [(CallbackType.BEFORE, INVALID_PAGE_ID),
         (CallbackType.AFTER, INVALID_PAGE_ID)])
  ∧ (∀ (s : BufferPoolManager) (out : Int),
      (s.NewPage out false).1 = s.NewPageImpl out ∧
      (s.NewPage out false).2 = [] ∧
      (s.NewPage out true).1 = s.NewPageImpl out ∧
      (s.NewPage out true).2 =
        [(CallbackType.BEFORE, INVALID_PAGE_ID),
         (CallbackType.AFTER, (s.NewPageImpl out).2.1)] ∧
      (s.NewPageImpl out).2.1 =
        (if (s.NewPageImpl out).1.isSome then s.disk.next_page_id
         else out)) := by
  refine ⟨?_, ?_, ?_, ?_, ?_, ?_⟩
  · intro s pid
    exact ⟨rfl, rfl, rfl, rfl⟩
  · intro s pid d
    exact ⟨rfl, rfl, rfl, rfl⟩
  · intro s pid
    exact ⟨rfl, rfl, rfl, rfl⟩
  · intro s pid
    exact ⟨rfl, rfl, rfl, rfl⟩
  · intro s
    exact ⟨rfl, rfl, rfl, rfl⟩
  · intro s out
    refine ⟨rfl, rfl, rfl, rfl, ?_⟩
    by_cases hc : s.free_list.isEmpty ∧ s.replacer.Size = 0
    · rw [NewPageImpl_full out hc]
      rfl
    · rw [NewPageImpl_go out hc]
      cases he : BufferPoolManager.Evict
          { s with disk := { s.disk with
              next_page_id := s.disk.next_page_id + 1 } }
          s.disk.next_page_id true with
      | none => rfl
      | some p =>
          obtain ⟨f, s2⟩ := p
          rfl

end Claims

end BusTub
